import Mathlib

/-!
# Conversation orchestration service: shallow embedding and verified properties

The definitions below embed `backend/src/services/chatServices.js`,
`backend/src/services/searchService.js` and the history route of
`backend/src/routes/chatRoutes.js`.  JavaScript arrays are lists, strings are
`String` (scanned as lists of characters), object fields that may be missing
are `Option`s, and `async` functions that may reject return `Except`.
-/

set_option autoImplicit false

/-! ## Data model -/

/-- One entry of `conversationHistory`, and equally one prompt message:
the object `{ role, content }`. -/
structure Turn where
  role : String
  content : String
deriving DecidableEq

/-! ## `searchService.js` -/

namespace SearchService

/-- One element of `organic_results`: the fields the service reads or writes.
A field missing from a backend reply is `none`. -/
structure OrganicResult where
  position : Option Nat
  title : Option String
  link : Option String
  snippet : Option String
  source : Option String
deriving DecidableEq

/-- One element of `response.data.items` in the Google Custom Search reply. -/
structure GoogleItem where
  rank : Option Nat
  title : Option String
  link : Option String
  snippet : Option String
  displayLink : Option String
deriving DecidableEq

/-- A JSON value that the service passes along without reading it: its text, and whether
it is truthy (`false`, `0`, `""` and `null` are not). -/
structure JsonValue where
  text : String
  truthy : Bool
deriving DecidableEq

/-- The expression `v || null` on a field that may be missing: the value when it is present
and truthy, `null` (`none`) otherwise. -/
def jsOrNull (v : Option JsonValue) : Option JsonValue :=
  match v with
  | some x => if x.truthy then some x else none
  | none => none

/-- The part of `response.data` that `searchWithSerpApi` reads; `organic_results` is `none`
when the field is missing or `null`, the other two fields are `none` when missing. -/
structure SerpData where
  organic_results : Option (List OrganicResult)
  knowledge_graph : Option JsonValue
  answer_box : Option JsonValue
deriving DecidableEq

/-- The part of `response.data` that `searchWithGoogleApi` reads. -/
structure GoogleData where
  items : Option (List GoogleItem)
deriving DecidableEq

/-- The value of `languageToCountry[languageCode] || 'us'`: a country code, or, when the
code names a property every object inherits, that inherited (truthy) property. -/
inductive CountryValue where
  | code (country : String)
  | inherited (key : String)
deriving DecidableEq

/-- The query parameters of the SerpAPI request. -/
structure SerpParams where
  api_key : Option String
  q : String
  hl : String
  gl : CountryValue
  num : Nat
deriving DecidableEq

/-- The query parameters of the Google Custom Search request. -/
structure GoogleParams where
  key : Option String
  cx : Option String
  q : String
  hl : String
  num : Nat
deriving DecidableEq

/-- What lies outside the program: the environment variables and the two HTTP exchanges
(`axios.get`), each of which resolves with the reply's `data` or rejects with a message. -/
structure Backends where
  SERPAPI_API_KEY : Option String
  GOOGLE_SEARCH_API_KEY : Option String
  GOOGLE_CSE_ID : Option String
  serpGet : SerpParams → Except String SerpData
  googleGet : GoogleParams → Except String GoogleData

/-- The value `searchWeb` resolves with: the bundle `{ query, organic_results,
knowledge_graph, answer_box }` or the error object `{ error, results }`. -/
inductive SearchEvidence where
  | bundle (query : String) (organic_results : List OrganicResult)
      (knowledge_graph answer_box : Option JsonValue)
  | failure (error : String) (results : List OrganicResult)
deriving DecidableEq

/-- The property read `searchResults.organic_results`: undefined on the error object. -/
def SearchEvidence.organic_results? : SearchEvidence → Option (List OrganicResult)
  | .bundle _ rs _ _ => some rs
  | .failure _ _ => none

/-- The property names an object literal inherits from `Object.prototype`; each of them
reads as a function or an object, hence as a truthy value. -/
def objectPrototypeKeys : List String :=
  ["constructor", "toString", "toLocaleString", "valueOf", "hasOwnProperty",
   "isPrototypeOf", "propertyIsEnumerable", "__proto__", "__defineGetter__",
   "__defineSetter__", "__lookupGetter__", "__lookupSetter__"]

/-- The function `getCountryFromLanguage(languageCode)`: the property read on the table,
`'us'` when it yields `undefined`. -/
def getCountryFromLanguage (languageCode : String) : CountryValue :=
  let languageToCountry : List (String × String) :=
    [("en", "us"), ("es", "es"), ("fr", "fr"), ("de", "de"), ("it", "it"),
     ("pt", "pt"), ("zh", "cn"), ("ja", "jp"), ("ru", "ru")]
  match languageToCountry.lookup languageCode with
  | some country => .code country
  | none =>
    if languageCode ∈ objectPrototypeKeys then .inherited languageCode else .code "us"

/-- The request `searchWithSerpApi` sends. -/
def serpParams (b : Backends) (query language : String) : SerpParams :=
  { api_key := b.SERPAPI_API_KEY, q := query, hl := language,
    gl := getCountryFromLanguage language, num := 5 }

/-- The request `searchWithGoogleApi` sends. -/
def googleParams (b : Backends) (query language : String) : GoogleParams :=
  { key := b.GOOGLE_SEARCH_API_KEY, cx := b.GOOGLE_CSE_ID, q := query, hl := language,
    num := 5 }

/-- The function `searchWithSerpApi(query, language)`. -/
def searchWithSerpApi (b : Backends) (query language : String) :
    Except String SearchEvidence := do
  let response ← b.serpGet (serpParams b query language)
  pure (.bundle query (response.organic_results.getD []) (jsOrNull response.knowledge_graph)
    (jsOrNull response.answer_box))

/-- The arrow function mapped over `items` in `searchWithGoogleApi`. -/
def remapItem (item : GoogleItem) : OrganicResult :=
  { position := item.rank, title := item.title, link := item.link,
    snippet := item.snippet, source := item.displayLink }

/-- The function `searchWithGoogleApi(query, language)`: `response.data.items.map` throws a
`TypeError` when the reply has no `items`. -/
def searchWithGoogleApi (b : Backends) (query language : String) :
    Except String SearchEvidence := do
  let response ← b.googleGet (googleParams b query language)
  match response.items with
  | none => throw "TypeError: Cannot read properties of undefined (reading 'map')"
  | some items => pure (.bundle query (items.map remapItem) none none)

/-- The function `searchWeb(query, language = 'en')`: the primary backend, on its failure
the secondary, on the failure of both the error object. -/
def searchWeb (b : Backends) (query : String) (language : Option String) :
    Except String SearchEvidence :=
  let language := language.getD "en"
  try
    searchWithSerpApi b query language
  catch _ =>
    try
      searchWithGoogleApi b query language
    catch _ =>
      pure (.failure "Failed to perform web search" [])

/-- Number of organic results carried by an evidence value (none on the error object). -/
def organicCount (e : SearchEvidence) : Nat :=
  (e.organic_results?.getD []).length

end SearchService

/-! ## `chatServices.js` -/

/-- The fields of the `ChatService` object (`apiKey` is read from the environment and
only travels to the provider). -/
structure ChatService where
  conversationHistory : List Turn
  apiType : String
  maxHistoryLength : Nat
deriving DecidableEq

/-- The optional `location` argument `{ latitude, longitude, address? }`; the coordinates
are held as the text the template literal renders for them. -/
structure Location where
  latitude : String
  longitude : String
  address : Option String
deriving DecidableEq

/-- The object `{ text, links }` returned by `postProcessResponse`. -/
structure ChatResponse where
  text : String
  links : List String
deriving DecidableEq

/-- What lies outside the program: the string built-ins the service calls, the language
detector (it catches its own errors and always returns a code), the HTTP exchange of each
provider adapter (resolving with the extracted reply text or rejecting), and the search
backends. -/
structure Runtime where
  toLowerCase : String → String
  jsonStringify : SearchService.SearchEvidence → String
  languageDetection : String → String
  openai : List Turn → Except String String
  anthropic : String → List Turn → Except String String
  perplexity : List Turn → Except String String
  sonar : List Turn → Except String String
  qwen : List Turn → Except String String
  backends : SearchService.Backends

/-- The expression `a || d` on an optional string: `d` when `a` is undefined or empty. -/
def jsOr (a : Option String) (d : String) : String :=
  match a with
  | some s => if s = "" then d else s
  | none => d

/-- `String.prototype.includes(p)`: `p` occurs in `s` at some position. -/
def jsIncludes (s p : String) : Bool :=
  s.data.tails.any fun t => p.data.isPrefixOf t

/-- The class `\s` of ECMAScript regular expressions: white space and line terminators. -/
def isWhiteSpace (c : Char) : Bool :=
  c.toNat ∈ [0x09, 0x0A, 0x0B, 0x0C, 0x0D, 0x20, 0xA0, 0x1680, 0x2028, 0x2029, 0x202F,
    0x205F, 0x3000, 0xFEFF] || (0x2000 ≤ c.toNat && c.toNat ≤ 0x200A)

/-- The pieces the pattern of `urlRegex` is a sequence of. -/
inductive RegexAtom where
  | char (c : Char)
  | optChar (c : Char)
  | plus (cls : Char → Bool)

/-- Backtracking match of a sequence of atoms at the head of the input: the input left
after the first match in priority order (`c?` and `cls+` are greedy), if there is one. -/
def matchAtoms : List RegexAtom → List Char → Option (List Char)
  | [], s => some s
  | .char c :: atoms, s =>
    match s with
    | x :: xs => if x = c then matchAtoms atoms xs else none
    | [] => none
  | .optChar c :: atoms, s =>
    (match s with
      | x :: xs => if x = c then matchAtoms atoms xs else none
      | [] => none).orElse fun _ => matchAtoms atoms s
  | .plus cls :: atoms, s =>
    (List.range (s.takeWhile cls).length).reverse.findSome? fun k =>
      matchAtoms atoms (s.drop (k + 1))

/-- The pattern `/(https?:\/\/[^\s]+)/g` of `postProcessResponse`. -/
def urlRegex : List RegexAtom :=
  [.char 'h', .char 't', .char 't', .char 'p', .optChar 's', .char ':', .char '/', .char '/',
   .plus fun c => !isWhiteSpace c]

/-- The loop of `String.prototype.match` with a global pattern: the match at the current
index if there is one, else the next index; after a match the scan resumes at its end
(one further when the match is empty). -/
def matchLoop (re : List RegexAtom) : Nat → List Char → List (List Char)
  | 0, _ => []
  | fuel + 1, s =>
    match matchAtoms re s with
    | some rest =>
      let m := s.take (s.length - rest.length)
      m :: (if m = [] then
              match s with
              | [] => []
              | _ :: cs => matchLoop re fuel cs
            else matchLoop re fuel rest)
    | none =>
      match s with
      | [] => []
      | _ :: cs => matchLoop re fuel cs

/-- The expression `response.match(urlRegex) || []`. -/
def jsMatchAll (re : List RegexAtom) (s : String) : List String :=
  (matchLoop re (s.length + 1) s.data).map String.mk

/-- `Array.prototype.slice(start)` with one argument: a negative `start` counts from the
end (`max (len + start) 0`), a non-negative one is clamped to the length; `-0` is `0`. -/
def jsSlice {α : Type} (xs : List α) (start : Int) : List α :=
  let len : Int := xs.length
  let k : Int := if start < 0 then max (len + start) 0 else min start len
  xs.drop k.toNat

namespace ChatService

/-- The `constructor()`: empty history, `maxHistoryLength = 10`. -/
def constructor : ChatService :=
  { conversationHistory := [], apiType := "perplexity", maxHistoryLength := 10 }

/-- The method `addToHistory(role, content)`: push, then keep the last
`maxHistoryLength * 2` entries when the length exceeds that bound. -/
def addToHistory (self : ChatService) (role content : String) : ChatService :=
  let pushed := self.conversationHistory ++ [{ role := role, content := content }]
  if pushed.length > self.maxHistoryLength * 2 then
    { self with conversationHistory := jsSlice pushed (-(self.maxHistoryLength : Int) * 2) }
  else
    { self with conversationHistory := pushed }

/-- The handler of `DELETE /history`: `chatService.conversationHistory = []`. -/
def clearHistory (self : ChatService) : ChatService :=
  { self with conversationHistory := [] }

/-- The operations that change the history. -/
inductive HistoryOp where
  | add (role content : String)
  | clear
deriving DecidableEq

/-- One history operation applied to the service. -/
def applyOp (self : ChatService) : HistoryOp → ChatService
  | .add role content => self.addToHistory role content
  | .clear => self.clearHistory

/-- The service reached from the empty history by a sequence of operations. -/
def runOps (maxHistoryLength : Nat) (ops : List HistoryOp) : ChatService :=
  ops.foldl applyOp { constructor with maxHistoryLength := maxHistoryLength }

/-- The turns appended one at a time, oldest first. -/
def appendAll (self : ChatService) (turns : List Turn) : ChatService :=
  turns.foldl (fun s t => s.addToHistory t.role t.content) self

/-- The method `buildPrompt(message, language, location)`. -/
def buildPrompt (self : ChatService) (message language : String)
    (location : Option Location) : List Turn :=
  let prompt : List Turn :=
    [{ role := "system",
       content := "You are a helpful multilingual assistant. Respond in the same language as the user\x27s query. Current language: " ++ language ++ "." }]
  let prompt :=
    match location with
    | some location =>
      prompt ++ [{ role := "system",
                   content := "The user\x27s location is: " ++ location.latitude ++ ", " ++
                     location.longitude ++ ". This appears to be in or near: " ++
                     jsOr location.address "Unknown location" ++ "." }]
    | none => prompt
  let prompt :=
    self.conversationHistory.foldl
      (fun prompt item => prompt ++ [{ role := item.role, content := item.content }]) prompt
  prompt ++ [{ role := "user", content := message }]

/-- The array `searchIndicators` of `checkIfNeedsSearch`. -/
def searchIndicators : List String :=
  ["search", "find", "look up", "what is", "who is", "where is",
   "how to", "when did", "why does", "latest", "news about",
   "information on", "tell me about", "search for"]

/-- The method `checkIfNeedsSearch(message)`; `toLowerCase` is the string built-in. -/
def checkIfNeedsSearch (toLowerCase : String → String) (message : String) : Bool :=
  searchIndicators.any fun indicator =>
    jsIncludes (toLowerCase message) (toLowerCase indicator)

/-- The adapter `callOpenAI(prompt)`. -/
def callOpenAI (rt : Runtime) (prompt : List Turn) : Except String String :=
  try rt.openai prompt
  catch _ => throw "Failed to get response from OpenAI"

/-- The adapter `callAnthropic(prompt)`: the first system message is hoisted, the others
are dropped from the conversation body. -/
def callAnthropic (rt : Runtime) (prompt : List Turn) : Except String String :=
  try
    let systemMessage := jsOr ((prompt.find? fun msg => msg.role = "system").map (·.content)) ""
    let userMessages := prompt.filter fun msg => msg.role ≠ "system"
    let messages : List Turn :=
      userMessages.map fun msg => { role := msg.role, content := msg.content }
    rt.anthropic systemMessage messages
  catch _ => throw "Failed to get response from Anthropic"

/-- The adapter `callPerplexity(prompt)`. -/
def callPerplexity (rt : Runtime) (prompt : List Turn) : Except String String :=
  try rt.perplexity prompt
  catch _ => throw "Failed to get response from Perplexity"

/-- The adapter `callSonar(prompt)`. -/
def callSonar (rt : Runtime) (prompt : List Turn) : Except String String :=
  try rt.sonar prompt
  catch _ => throw "Failed to get response from Sonar"

/-- The adapter `callQwen(prompt)`. -/
def callQwen (rt : Runtime) (prompt : List Turn) : Except String String :=
  try rt.qwen prompt
  catch _ => throw "Failed to get response from Qwen"

/-- The method `callLLMApi(prompt)`: the adapter selected by `apiType`. -/
def callLLMApi (rt : Runtime) (self : ChatService) (prompt : List Turn) :
    Except String String :=
  if self.apiType = "openai" then callOpenAI rt prompt
  else if self.apiType = "anthropic" then callAnthropic rt prompt
  else if self.apiType = "perplexity" then callPerplexity rt prompt
  else if self.apiType = "qwen" then callQwen rt prompt
  else callSonar rt prompt

/-- The method `postProcessResponse(response, searchResults)`; `searchResults` is `null`
(`none`) when no search was made. -/
def postProcessResponse (response : String)
    (searchResults : Option SearchService.SearchEvidence) : ChatResponse :=
  let extractedUrls := jsMatchAll urlRegex response
  let links := extractedUrls
  let links :=
    match searchResults.bind (·.organic_results?) with
    | some organic_results =>
      organic_results.foldl
        (fun links result =>
          match result.link with
          | some link => if link ≠ "" ∧ !links.contains link then links ++ [link] else links
          | none => links)
        links
    | none => links
  { text := response, links := links }

/-- Steps 3 and 4 of `processMessage`: the prompt built over the current history, with the
search evidence message pushed onto it when the gate is open, and the evidence itself. -/
def promptAndEvidence (rt : Runtime) (self : ChatService) (message detectedLanguage : String)
    (location : Option Location) :
    Except String (Option SearchService.SearchEvidence × List Turn) :=
  let enhancedPrompt := self.buildPrompt message detectedLanguage location
  let needsSearch := checkIfNeedsSearch rt.toLowerCase message
  if needsSearch then do
    let searchResults ← SearchService.searchWeb rt.backends message (some detectedLanguage)
    pure (some searchResults,
      enhancedPrompt ++ [{ role := "system",
                           content := "Web search results for \"" ++ message ++ "\": " ++
                             rt.jsonStringify searchResults }])
  else
    pure (none, enhancedPrompt)

/-- The method `processMessage(message, language = null, location = null)`: the value it
resolves with or the message of the error it rejects with, and the service afterwards. -/
def processMessage (rt : Runtime) (self : ChatService) (message : String)
    (language : Option String) (location : Option Location) :
    Except String ChatResponse × ChatService :=
  let detectedLanguage := jsOr language (rt.languageDetection message)
  let self := self.addToHistory "user" message
  match promptAndEvidence rt self message detectedLanguage location with
  | .error _ => (.error "Failed to process message", self)
  | .ok (searchResults, enhancedPrompt) =>
    match callLLMApi rt self enhancedPrompt with
    | .error _ => (.error "Failed to process message", self)
    | .ok response =>
      let processedResponse := postProcessResponse response searchResults
      let self := self.addToHistory "assistant" processedResponse.text
      (.ok processedResponse, self)

end ChatService

/-! ## Specification-side definitions -/

namespace Spec

/-- The URL-shaped text at the head of `s`, in the words of the specification: the scheme
`http://` or `https://` followed by the maximal run of non-whitespace characters, which
must not be empty. -/
def urlShapedAt (s : List Char) : Option (List Char) :=
  let after (scheme : List Char) : Option (List Char) :=
    if scheme.isPrefixOf s then
      let run := (s.drop scheme.length).takeWhile fun c => !isWhiteSpace c
      if run = [] then none else some (scheme ++ run)
    else none
  (after "http://".data).orElse fun _ => after "https://".data

/-- Left-to-right scan for URL-shaped substrings; `skip` counts the characters of the last
URL found that are still to be passed over, so that the URLs found do not overlap. -/
def scanUrls : List Char → Nat → List (List Char)
  | [], _ => []
  | _ :: cs, skip + 1 => scanUrls cs skip
  | c :: cs, 0 =>
    match urlShapedAt (c :: cs) with
    | some url => url :: scanUrls cs (url.length - 1)
    | none => scanUrls cs 0

/-- The URL-shaped substrings of a text, in order of appearance. -/
def urlShapedSubstrings (text : String) : List String :=
  (scanUrls text.data 0).map String.mk

/-- The links of the organic results of an evidence value, in evidence order; none when
the evidence is absent or is the error object. -/
def evidenceLinks : Option SearchService.SearchEvidence → List String
  | some (.bundle _ organic_results _ _) => organic_results.filterMap (·.link)
  | some (.failure _ _) => []
  | none => []

/-- The list with every repeat of an earlier element removed: first occurrences only, in
their original order. -/
def keepFirst : List String → List String
  | [] => []
  | x :: xs => x :: (keepFirst xs).filter fun y => y ≠ x

/-- The system message that declares the persona and names the response language. -/
def personaMessage (language : String) : Turn :=
  { role := "system",
    content := "You are a helpful multilingual assistant. Respond in the same language as the user\x27s query. Current language: " ++ language ++ "." }

/-- The system message that embeds the coordinates and the name of the place. -/
def locationMessage (latitude longitude place : String) : Turn :=
  { role := "system",
    content := "The user\x27s location is: " ++ latitude ++ ", " ++ longitude ++
      ". This appears to be in or near: " ++ place ++ "." }

/-- What an adapter makes of the provider's answer: the reply text, or on any failure its
own error that names the provider. -/
def adapterOutcome (provider : String) (reply : Except String String) : Except String String :=
  match reply with
  | .ok text => .ok text
  | .error _ => .error ("Failed to get response from " ++ provider)

/-- What `processMessage` does once the model call has settled, given the service as it
stands after the user turn and the evidence gathered: on a failure the uniform error and
the service unchanged, on a reply the normalized response and the assistant turn. -/
def afterDispatch (self : ChatService) (searchResults : Option SearchService.SearchEvidence)
    (reply : Except String String) : Except String ChatResponse × ChatService :=
  match reply with
  | .error _ => (.error "Failed to process message", self)
  | .ok response =>
    (.ok (ChatService.postProcessResponse response searchResults),
      self.addToHistory "assistant" (ChatService.postProcessResponse response searchResults).text)

end Spec

/-! ## Sample values -/

namespace Sample

/-- Lower-casing of the letters `A`–`Z`, every other character unchanged. -/
def asciiLower (s : String) : String :=
  String.mk (s.data.map fun c => if 'A' ≤ c ∧ c ≤ 'Z' then Char.ofNat (c.toNat + 32) else c)

/-- An organic result that carries only a link. -/
def linkOnly (link : String) : SearchService.OrganicResult :=
  { position := none, title := none, link := some link, snippet := none, source := none }

/-- A Google item with a rank and a link. -/
def item (rank : Nat) (link : String) : SearchService.GoogleItem :=
  { rank := some rank, title := some "t", link := some link, snippet := some "s",
    displayLink := some "d" }

/-- Search backends given by their two replies. -/
def backends (serp : Except String SearchService.SerpData)
    (google : Except String SearchService.GoogleData) : SearchService.Backends :=
  { SERPAPI_API_KEY := none, GOOGLE_SEARCH_API_KEY := none, GOOGLE_CSE_ID := none,
    serpGet := fun _ => serp, googleGet := fun _ => google }

/-- A primary reply with the given organic results. -/
def serpReply (rs : List SearchService.OrganicResult) : Except String SearchService.SerpData :=
  .ok { organic_results := some rs, knowledge_graph := none, answer_box := none }

/-- Six organic results, one more than the requested number. -/
def sixResults : List SearchService.OrganicResult :=
  (List.range 6).map fun i => linkOnly ("https://r.test/" ++ toString i)

/-- A runtime whose every provider gives the same reply, over the given search backends. -/
def runtime (llm : Except String String) (b : SearchService.Backends) : Runtime :=
  { toLowerCase := asciiLower, jsonStringify := fun _ => "{}",
    languageDetection := fun _ => "en",
    openai := fun _ => llm, anthropic := fun _ _ => llm, perplexity := fun _ => llm,
    sonar := fun _ => llm, qwen := fun _ => llm, backends := b }

/-- Twenty-five turns, alternating user and assistant, numbered 1 to 25. -/
def turns25 : List Turn :=
  (List.range 25).map fun i =>
    { role := if i % 2 = 0 then "user" else "assistant", content := toString (i + 1) }

end Sample

/-! ## Theorems -/

namespace ChatService

theorem jsSlice_neg {α : Type} (xs : List α) (n : Nat) (hn : 0 < n) :
    jsSlice xs (-(n : Int) * 2) = xs.drop (xs.length - n * 2) := by
  unfold jsSlice
  have h1 : (-(n : Int) * 2) < 0 := by omega
  simp only [h1, if_true]
  congr 1
  omega

theorem addToHistory_maxHistoryLength (self : ChatService) (role content : String) :
    (self.addToHistory role content).maxHistoryLength = self.maxHistoryLength := by
  unfold addToHistory
  simp only []
  split <;> rfl

theorem addToHistory_history (self : ChatService) (role content : String)
    (hpos : 0 < self.maxHistoryLength) :
    (self.addToHistory role content).conversationHistory =
      (self.conversationHistory ++ [(⟨role, content⟩ : Turn)]).drop
        ((self.conversationHistory.length + 1) - self.maxHistoryLength * 2) := by
  unfold addToHistory
  simp only []
  split
  · simp only [jsSlice_neg _ _ hpos, List.length_append, List.length_singleton]
  · next h =>
    simp only [List.length_append, List.length_singleton] at h
    have : self.conversationHistory.length + 1 - self.maxHistoryLength * 2 = 0 := by omega
    simp [this]

theorem applyOp_maxHistoryLength (self : ChatService) (op : HistoryOp) :
    (self.applyOp op).maxHistoryLength = self.maxHistoryLength := by
  cases op
  · exact addToHistory_maxHistoryLength _ _ _
  · rfl

theorem applyOp_bound (self : ChatService) (op : HistoryOp)
    (hpos : 0 < self.maxHistoryLength) :
    (self.applyOp op).conversationHistory.length ≤ 2 * self.maxHistoryLength := by
  cases op with
  | add role content =>
    simp only [applyOp, addToHistory_history _ _ _ hpos, List.length_drop, List.length_append,
      List.length_singleton]
    omega
  | clear => simp [applyOp, clearHistory]

theorem foldl_applyOp_bound (ops : List HistoryOp) (self : ChatService)
    (hpos : 0 < self.maxHistoryLength)
    (hlen : self.conversationHistory.length ≤ 2 * self.maxHistoryLength) :
    (ops.foldl applyOp self).conversationHistory.length ≤ 2 * self.maxHistoryLength ∧
      (ops.foldl applyOp self).maxHistoryLength = self.maxHistoryLength := by
  induction ops generalizing self with
  | nil => exact ⟨hlen, rfl⟩
  | cons op ops ih =>
    have hm := applyOp_maxHistoryLength self op
    have hb := applyOp_bound self op hpos
    have := ih (self.applyOp op) (by omega) (by omega)
    simp only [List.foldl_cons]
    rw [hm] at this
    exact this

/-- For every positive `maxHistoryLength`, every state reachable from the empty history by
`addToHistory` calls and history clears has
`conversationHistory.length ≤ 2 * maxHistoryLength`. -/
theorem history_length_bounded (maxHistoryLength : Nat) (hpos : 0 < maxHistoryLength)
    (ops : List HistoryOp) :
    (runOps maxHistoryLength ops).conversationHistory.length ≤ 2 * maxHistoryLength :=
  (foldl_applyOp_bound ops { constructor with maxHistoryLength := maxHistoryLength } hpos
    (by simp [constructor])).1

/-- The bound at `maxHistoryLength = 1` after five appends and a clear in between. -/
theorem history_length_bounded_witness :
    0 < 1 ∧ (runOps 1 [.add "user" "a", .add "assistant" "b", .clear, .add "user" "c",
      .add "assistant" "d", .add "user" "e"]).conversationHistory.length ≤ 2 * 1 :=
  ⟨by decide, history_length_bounded 1 (by decide) _⟩

theorem appendAll_history (turns : List Turn) (self : ChatService)
    (hpos : 0 < self.maxHistoryLength)
    (hlen : self.conversationHistory.length ≤ 2 * self.maxHistoryLength) :
    (self.appendAll turns).conversationHistory =
        (self.conversationHistory ++ turns).drop
          ((self.conversationHistory.length + turns.length) - self.maxHistoryLength * 2) ∧
      (self.appendAll turns).maxHistoryLength = self.maxHistoryLength := by
  induction turns generalizing self with
  | nil =>
    refine ⟨?_, rfl⟩
    have : self.conversationHistory.length - self.maxHistoryLength * 2 = 0 := by omega
    simp [appendAll, this]
  | cons t ts ih =>
    have hm := addToHistory_maxHistoryLength self t.role t.content
    have hh := addToHistory_history self t.role t.content hpos
    have hstep : self.appendAll (t :: ts) = (self.addToHistory t.role t.content).appendAll ts := rfl
    have hl : (self.addToHistory t.role t.content).conversationHistory.length =
        self.conversationHistory.length + 1 -
          (self.conversationHistory.length + 1 - self.maxHistoryLength * 2) := by
      rw [hh]; simp
    obtain ⟨ih1, ih2⟩ := ih (self.addToHistory t.role t.content) (by omega) (by omega)
    rw [hstep, ih1, ih2, hm]
    refine ⟨?_, rfl⟩
    rw [hl, hh]
    have hle : self.conversationHistory.length + 1 - self.maxHistoryLength * 2 ≤
        (self.conversationHistory ++ [(⟨t.role, t.content⟩ : Turn)]).length := by
      simp
    rw [← List.drop_append_of_le_length hle, List.drop_drop]
    have hcat : self.conversationHistory ++ [(⟨t.role, t.content⟩ : Turn)] ++ ts =
        self.conversationHistory ++ t :: ts := by simp
    rw [hcat]
    congr 1
    simp only [List.length_cons]
    omega

/-- C2: with the constructor's `maxHistoryLength = 10`, appending any sequence of turns
one at a time to the empty history leaves exactly the last `min n 20` turns of the
sequence, in their original order and unchanged; for 25 turns these are turns 6 to 25. -/
theorem history_keeps_last_twenty (turns : List Turn) :
    constructor.maxHistoryLength = 10 ∧
    (constructor.appendAll turns).conversationHistory =
        turns.drop (turns.length - min turns.length 20) ∧
      (constructor.appendAll turns).conversationHistory.length = min turns.length 20 ∧
      (turns.length = 25 → (constructor.appendAll turns).conversationHistory = turns.drop 5) := by
  have h := (appendAll_history turns constructor (by decide) (by decide)).1
  have h0 : constructor.conversationHistory = [] := rfl
  have h1 : constructor.maxHistoryLength = 10 := rfl
  rw [h0, h1] at h
  simp only [List.nil_append, List.length_nil, Nat.zero_add] at h
  have e : turns.length - min turns.length 20 = turns.length - 10 * 2 := by omega
  refine ⟨rfl, ?_, ?_, ?_⟩
  · rw [h, e]
  · rw [h, List.length_drop]; omega
  · intro h25
    rw [h, h25]

/-- C2 witness: twenty-five numbered turns leave turns 6 to 25. -/
theorem history_keeps_last_twenty_witness :
    Sample.turns25.length = 25 ∧
      (constructor.appendAll Sample.turns25).conversationHistory = Sample.turns25.drop 5 :=
  ⟨by simp [Sample.turns25],
    (history_keeps_last_twenty Sample.turns25).2.2.2 (by simp [Sample.turns25])⟩

/-- C1: the bound `conversationHistory.length ≤ 2 * maxHistoryLength` is not kept at
`maxHistoryLength = 0`.  There the guard of `addToHistory` is taken, but `slice(-0)` is
`slice(0)` and keeps the whole array: one append to the empty history leaves length 1,
and three appends leave length 3. -/
theorem history_length_unbounded_at_zero :
    (runOps 0 [.add "user" "hi"]).conversationHistory = [⟨"user", "hi"⟩] ∧
      ¬ (runOps 0 [.add "user" "hi"]).conversationHistory.length ≤ 2 * 0 ∧
      (runOps 0 [.add "user" "a", .add "assistant" "b",
        .add "user" "c"]).conversationHistory.length = 3 := by
  decide

end ChatService

/-! ### The response normalizer -/

section Normalizer

open ChatService SearchService Spec

theorem drop_takeWhile_length {α : Type} (p : α → Bool) (s : List α) :
    s.drop (s.takeWhile p).length = s.dropWhile p := by
  induction s with
  | nil => rfl
  | cons x xs ih =>
    by_cases h : p x = true
    · simp [List.takeWhile_cons, List.dropWhile_cons, h, ih]
    · simp [List.takeWhile_cons, List.dropWhile_cons, h]

theorem findSome_greedy (cls : Char → Bool) (s : List Char) :
    ((List.range (s.takeWhile cls).length).reverse.findSome? fun k => some (s.drop (k + 1))) =
      if s.takeWhile cls = [] then none else some (s.dropWhile cls) := by
  rcases h : (s.takeWhile cls).length with _ | n
  · have : s.takeWhile cls = [] := List.length_eq_zero.mp h
    simp [this]
  · have hne : s.takeWhile cls ≠ [] := by
      intro h0; rw [h0] at h; simp at h
    rw [List.range_succ, List.reverse_append]
    simp only [List.reverse_cons, List.reverse_nil, List.nil_append, List.singleton_append,
      List.findSome?_cons, if_neg hne]
    rw [← h, drop_takeWhile_length]

theorem matchAtoms_urlRegex (s : List Char) :
    matchAtoms urlRegex s = (urlShapedAt s).map fun url => s.drop url.length := by
  have e1 : "http://".data = ['h', 't', 't', 'p', ':', '/', '/'] := rfl
  have e2 : "https://".data = ['h', 't', 't', 'p', 's', ':', '/', '/'] := rfl
  unfold urlRegex urlShapedAt
  simp only [e1, e2]
  rcases s with _ | ⟨c0, s⟩
  · rfl
  by_cases h0 : c0 = 'h'
  swap
  · simp [matchAtoms, h0, List.isPrefixOf, Ne.symm h0]
  subst h0
  rcases s with _ | ⟨c1, s⟩
  · rfl
  by_cases h1 : c1 = 't'
  swap
  · simp [matchAtoms, h1, List.isPrefixOf, Ne.symm h1]
  subst h1
  rcases s with _ | ⟨c2, s⟩
  · rfl
  by_cases h2 : c2 = 't'
  swap
  · simp [matchAtoms, h2, List.isPrefixOf, Ne.symm h2]
  subst h2
  rcases s with _ | ⟨c3, s⟩
  · rfl
  by_cases h3 : c3 = 'p'
  swap
  · simp [matchAtoms, h3, List.isPrefixOf, Ne.symm h3]
  subst h3
  rcases s with _ | ⟨c4, s⟩
  · rfl
  by_cases h4 : c4 = 's'
  · subst h4
    rcases s with _ | ⟨c5, s⟩
    · rfl
    by_cases h5 : c5 = ':'
    swap
    · simp [matchAtoms, h5, List.isPrefixOf, Ne.symm h5]
    subst h5
    rcases s with _ | ⟨c6, s⟩
    · rfl
    by_cases h6 : c6 = '/'
    swap
    · simp [matchAtoms, h6, List.isPrefixOf, Ne.symm h6]
    subst h6
    rcases s with _ | ⟨c7, s⟩
    · rfl
    by_cases h7 : c7 = '/'
    swap
    · simp [matchAtoms, h7, List.isPrefixOf, Ne.symm h7]
    subst h7
    simp only [matchAtoms, findSome_greedy]
    by_cases hr : s.takeWhile (fun c => !isWhiteSpace c) = []
    · simp [hr, List.isPrefixOf]
    · simp [hr, List.isPrefixOf, ← drop_takeWhile_length]
  by_cases h4c : c4 = ':'
  swap
  · simp [matchAtoms, h4, h4c, List.isPrefixOf, Ne.symm h4, Ne.symm h4c]
  subst h4c
  rcases s with _ | ⟨c5, s⟩
  · rfl
  by_cases h5 : c5 = '/'
  swap
  · simp [matchAtoms, h5, List.isPrefixOf, Ne.symm h5]
  subst h5
  rcases s with _ | ⟨c6, s⟩
  · rfl
  by_cases h6 : c6 = '/'
  swap
  · simp [matchAtoms, h6, List.isPrefixOf, Ne.symm h6]
  subst h6
  simp only [matchAtoms, findSome_greedy]
  by_cases hr : s.takeWhile (fun c => !isWhiteSpace c) = []
  · simp [hr, List.isPrefixOf]
  · simp [hr, List.isPrefixOf, ← drop_takeWhile_length]

theorem urlShapedAt_prefix (s url : List Char) (h : urlShapedAt s = some url) :
    url <+: s ∧ url ≠ [] := by
  have key : ∀ scheme : List Char, scheme ≠ [] → ∀ u,
      (if scheme.isPrefixOf s then
        (if (s.drop scheme.length).takeWhile (fun c => !isWhiteSpace c) = [] then none
         else some (scheme ++ (s.drop scheme.length).takeWhile fun c => !isWhiteSpace c))
       else none) = some u → u <+: s ∧ u ≠ [] := by
    intro scheme hne u hu
    split at hu
    · next hp =>
      split at hu
      · cases hu
      · cases hu
        rw [List.isPrefixOf_iff_prefix] at hp
        obtain ⟨t, rfl⟩ := hp
        refine ⟨?_, by simp [hne]⟩
        simp only [List.drop_left]
        exact (List.prefix_append_right_inj scheme).mpr (List.takeWhile_prefix _)
    · cases hu
  unfold urlShapedAt at h
  simp only [] at h
  cases h1 : (if "http://".data.isPrefixOf s then
        (if (s.drop "http://".data.length).takeWhile (fun c => !isWhiteSpace c) = [] then none
         else some ("http://".data ++ (s.drop "http://".data.length).takeWhile fun c => !isWhiteSpace c))
       else none) with
  | some u =>
    rw [h1] at h
    simp only [Option.orElse] at h
    cases h
    exact key _ (by decide) _ h1
  | none =>
    rw [h1] at h
    simp only [Option.orElse] at h
    exact key _ (by decide) _ h

theorem scanUrls_skip (s : List Char) (k : Nat) : scanUrls s k = scanUrls (s.drop k) 0 := by
  induction s generalizing k with
  | nil => cases k <;> rfl
  | cons c cs ih =>
    cases k with
    | zero => rfl
    | succ k => simpa [scanUrls] using ih k

theorem matchLoop_urlRegex (fuel : Nat) (s : List Char) (h : s.length < fuel) :
    matchLoop urlRegex fuel s = scanUrls s 0 := by
  induction fuel generalizing s with
  | zero => omega
  | succ fuel ih =>
    simp only [matchLoop, matchAtoms_urlRegex]
    cases hu : urlShapedAt s with
    | none =>
      cases s with
      | nil => rfl
      | cons c cs =>
        simp only [Option.map_none', scanUrls, hu]
        exact ih cs (by simpa using h)
    | some url =>
      obtain ⟨⟨t, rfl⟩, hne⟩ := urlShapedAt_prefix s url hu
      have hlen : 0 < url.length := List.length_pos.mpr hne
      have htake : List.take ((url ++ t).length - t.length) (url ++ t) = url := by
        simp
      simp only [Option.map_some', List.drop_left, htake, if_neg hne]
      rw [ih t (by simp at h; omega)]
      cases url with
      | nil => exact absurd rfl hne
      | cons c cs =>
        simp only [List.cons_append] at hu ⊢
        simp only [scanUrls, hu, List.length_cons, Nat.add_sub_cancel, List.cons_append]
        rw [scanUrls_skip (cs ++ t) cs.length, List.drop_left]

theorem jsMatchAll_urlRegex (text : String) :
    jsMatchAll urlRegex text = urlShapedSubstrings text := by
  unfold jsMatchAll urlShapedSubstrings
  rw [matchLoop_urlRegex]
  exact Nat.lt_succ_self _

theorem keepFirst_filter (q : String → Bool) (l : List String) :
    keepFirst (l.filter q) = (keepFirst l).filter q := by
  induction l with
  | nil => rfl
  | cons x xs ih =>
    by_cases hq : q x = true
    · simp only [List.filter_cons, hq, if_true, keepFirst, ih, List.filter_filter]
      congr 1
      apply List.filter_congr
      intro y _
      exact Bool.and_comm _ _
    · have hq2 : q x = false := by simpa using hq
      simp only [List.filter_cons, hq2, keepFirst, ih, List.filter_filter, Bool.false_eq_true,
        if_false]
      apply List.filter_congr
      intro y _
      by_cases hy : y = x
      · subst hy; simp [hq]
      · simp [hy]

theorem keepFirst_nodup (l : List String) : (keepFirst l).Nodup := by
  induction l with
  | nil => exact List.nodup_nil
  | cons x xs ih =>
    simp only [keepFirst, List.nodup_cons]
    exact ⟨by simp, ih.filter _⟩

theorem mem_keepFirst (l : List String) (y : String) : y ∈ keepFirst l ↔ y ∈ l := by
  induction l with
  | nil => simp [keepFirst]
  | cons x xs ih =>
    simp only [keepFirst, List.mem_cons, List.mem_filter, ih]
    by_cases hy : y = x <;> simp [hy]

theorem merge_foldl (rs : List OrganicResult) (acc : List String) :
    rs.foldl
        (fun links result =>
          match result.link with
          | some link => if link ≠ "" ∧ !links.contains link then links ++ [link] else links
          | none => links)
        acc =
      acc ++ keepFirst ((rs.filterMap (·.link)).filter fun l => decide (l ≠ "" ∧ l ∉ acc)) := by
  induction rs generalizing acc with
  | nil => simp [keepFirst]
  | cons r rs ih =>
    simp only [List.foldl_cons]
    cases hl : r.link with
    | none =>
      simp only [List.filterMap_cons, hl]
      exact ih acc
    | some l =>
      simp only [List.filterMap_cons, hl]
      by_cases hc : l ≠ "" ∧ (!acc.contains l) = true
      · rw [if_pos hc, ih]
        have hmem : l ∉ acc := by simpa using hc.2
        have hp : decide (l ≠ "" ∧ l ∉ acc) = true := by simpa using ⟨hc.1, hmem⟩
        simp only [List.filter_cons, hp, if_true, keepFirst, List.append_assoc,
          List.singleton_append]
        rw [← keepFirst_filter, List.filter_filter]
        congr 3
        apply List.filter_congr
        intro y _
        by_cases hy : y = l
        · subst hy; simp
        · simp [hy]
      · rw [if_neg hc, ih]
        have hp : ¬ decide (l ≠ "" ∧ l ∉ acc) = true := by
          intro h
          simp only [decide_eq_true_eq] at h
          exact hc ⟨h.1, by simpa using h.2⟩
        simp only [List.filter_cons, hp]
        rfl

theorem postProcessResponse_eq (response : String) (searchResults : Option SearchEvidence) :
    postProcessResponse response searchResults =
      { text := response,
        links := urlShapedSubstrings response ++
          keepFirst ((evidenceLinks searchResults).filter fun l =>
            decide (l ≠ "" ∧ l ∉ urlShapedSubstrings response)) } := by
  unfold postProcessResponse
  simp only [jsMatchAll_urlRegex]
  rcases searchResults with _ | ⟨q, rs, kg, ab⟩ | ⟨e, rs⟩
  · simp [evidenceLinks, keepFirst]
  · simp only [Option.bind, SearchEvidence.organic_results?, merge_foldl, evidenceLinks]
  · simp [SearchEvidence.organic_results?, evidenceLinks, keepFirst]

/-- C3: `postProcessResponse` returns the raw text unchanged, and its links are the
URL-shaped substrings of the text in order of appearance followed by each non-empty
organic-result link of the evidence that is not already in the list, in evidence order;
when the evidence is absent or is the error object the links are the extracted URLs only.
For "Check https://a.test and https://b.test" with the evidence link https://c.test the
links are a, b, c in that order. -/
theorem postProcessResponse_links (response : String)
    (searchResults : Option SearchEvidence) :
    (postProcessResponse response searchResults).text = response ∧
      (postProcessResponse response searchResults).links =
        urlShapedSubstrings response ++
          keepFirst ((evidenceLinks searchResults).filter fun l =>
            decide (l ≠ "" ∧ l ∉ urlShapedSubstrings response)) ∧
      (∀ query organic_results kg ab,
        evidenceLinks (some (.bundle query organic_results kg ab)) =
          organic_results.filterMap (·.link)) ∧
      (postProcessResponse response none).links = urlShapedSubstrings response ∧
      (∀ error results,
        (postProcessResponse response (some (.failure error results))).links =
          urlShapedSubstrings response) ∧
      (∀ query kg ab,
        (postProcessResponse "Check https://a.test and https://b.test"
          (some (.bundle query [Sample.linkOnly "https://c.test"] kg ab))).links =
          ["https://a.test", "https://b.test", "https://c.test"]) := by
  refine ⟨?_, ?_, ?_, ?_, ?_, ?_⟩
  · rw [postProcessResponse_eq]
  · rw [postProcessResponse_eq]
  · intros; rfl
  · rw [postProcessResponse_eq]; simp [evidenceLinks, keepFirst]
  · intro error results
    rw [postProcessResponse_eq]; simp [evidenceLinks, keepFirst]
  · intro query kg ab
    have hu : urlShapedSubstrings "Check https://a.test and https://b.test" =
        ["https://a.test", "https://b.test"] := by decide
    rw [postProcessResponse_eq, hu]
    rfl

/-- C4 (amended): the links returned by `postProcessResponse` repeat a URL only as often
as the text itself repeats it: a URL occurs in `links` at most once unless it occurs more
often among the URLs extracted from the text, and when the extracted URLs are pairwise
distinct `links` has no duplicates, whatever the evidence. -/
theorem links_nodup_of_extracted_nodup (response : String)
    (searchResults : Option SearchEvidence) :
    ((urlShapedSubstrings response).Nodup →
        (postProcessResponse response searchResults).links.Nodup) ∧
      ∀ l, (postProcessResponse response searchResults).links.count l ≤
        max 1 ((urlShapedSubstrings response).count l) := by
  rw [postProcessResponse_eq]
  simp only []
  constructor
  · intro h
    refine List.nodup_append.mpr ⟨h, keepFirst_nodup _, ?_⟩
    intro a ha hb
    rw [mem_keepFirst, List.mem_filter] at hb
    simp only [decide_eq_true_eq] at hb
    exact hb.2.2 ha
  · intro l
    rw [List.count_append]
    have h1 : (keepFirst ((evidenceLinks searchResults).filter fun l =>
        decide (l ≠ "" ∧ l ∉ urlShapedSubstrings response))).count l ≤ 1 :=
      List.nodup_iff_count_le_one.mp (keepFirst_nodup _) l
    by_cases hm : l ∈ urlShapedSubstrings response
    · have h0 : (keepFirst ((evidenceLinks searchResults).filter fun l =>
          decide (l ≠ "" ∧ l ∉ urlShapedSubstrings response))).count l = 0 := by
        apply List.count_eq_zero_of_not_mem
        rw [mem_keepFirst, List.mem_filter]
        simp only [decide_eq_true_eq]
        intro hb
        exact hb.2.2 hm
      rw [h0]
      omega
    · rw [List.count_eq_zero_of_not_mem hm]
      omega

/-- C4 witness: two distinct URLs in the text and an evidence list that repeats one of
them give duplicate-free links. -/
theorem links_nodup_of_extracted_nodup_witness :
    (urlShapedSubstrings "Check https://a.test and https://b.test").Nodup ∧
      (postProcessResponse "Check https://a.test and https://b.test"
        (some (.bundle "q" [Sample.linkOnly "https://c.test", Sample.linkOnly "https://a.test",
          Sample.linkOnly "https://c.test"] none none))).links.Nodup :=
  ⟨by decide, (links_nodup_of_extracted_nodup _ _).1 (by decide)⟩

/-- C4 as stated fails: a text that names the same URL twice yields that URL twice in
`links`. -/
theorem links_duplicate_from_text :
    (postProcessResponse "See https://a.test and https://a.test" none).links =
        ["https://a.test", "https://a.test"] ∧
      ¬ (postProcessResponse "See https://a.test and https://a.test" none).links.Nodup := by
  decide

end Normalizer

/-! ### The augmentation gate -/

section Gate

open ChatService

theorem jsIncludes_iff (s p : String) : jsIncludes s p = true ↔ p.data <:+: s.data := by
  unfold jsIncludes
  rw [List.any_eq_true, List.infix_iff_prefix_suffix]
  constructor
  · rintro ⟨t, ht, hp⟩
    exact ⟨t, List.isPrefixOf_iff_prefix.mp hp, (List.mem_tails _ _).mp ht⟩
  · rintro ⟨t, hp, ht⟩
    exact ⟨t, (List.mem_tails _ _).mpr ht, List.isPrefixOf_iff_prefix.mpr hp⟩

theorem checkIfNeedsSearch_eq_true_iff (toLowerCase : String → String)
    (hfix : ∀ p ∈ searchIndicators, toLowerCase p = p) (message : String) :
    checkIfNeedsSearch toLowerCase message = true ↔
      ∃ p ∈ searchIndicators, p.data <:+: (toLowerCase message).data := by
  unfold checkIfNeedsSearch
  rw [List.any_eq_true]
  constructor
  · rintro ⟨p, hp, h⟩
    rw [hfix p hp, jsIncludes_iff] at h
    exact ⟨p, hp, h⟩
  · rintro ⟨p, hp, h⟩
    refine ⟨p, hp, ?_⟩
    rw [hfix p hp, jsIncludes_iff]
    exact h

/-- C5: `checkIfNeedsSearch(message)` is true if and only if the lower-cased message
contains one of the 14 trigger phrases as a substring (lower-casing leaves the phrases
themselves unchanged); so it is false when the lower-cased text contains none of them,
true when it contains "latest news about", and equal on two messages with the same
lower-casing, that is, on messages that differ only in letter case. -/
theorem checkIfNeedsSearch_spec (toLowerCase : String → String)
    (hfix : ∀ p ∈ searchIndicators, toLowerCase p = p) (message : String) :
    searchIndicators.length = 14 ∧
      (checkIfNeedsSearch toLowerCase message = true ↔
        ∃ p ∈ searchIndicators, p.data <:+: (toLowerCase message).data) ∧
      ((∀ p ∈ searchIndicators, ¬ p.data <:+: (toLowerCase message).data) →
        checkIfNeedsSearch toLowerCase message = false) ∧
      ("latest news about".data <:+: (toLowerCase message).data →
        checkIfNeedsSearch toLowerCase message = true) ∧
      (∀ other : String, toLowerCase other = toLowerCase message →
        checkIfNeedsSearch toLowerCase other = checkIfNeedsSearch toLowerCase message) := by
  have hiff := checkIfNeedsSearch_eq_true_iff toLowerCase hfix message
  refine ⟨rfl, hiff, ?_, ?_, ?_⟩
  · intro hnone
    cases hc : checkIfNeedsSearch toLowerCase message with
    | false => rfl
    | true =>
      obtain ⟨p, hp, h⟩ := hiff.mp hc
      exact absurd h (hnone p hp)
  · intro h
    refine hiff.mpr ⟨"latest", by decide, ?_⟩
    exact List.IsInfix.trans ⟨[], " news about".data, rfl⟩ h
  · intro other ho
    unfold checkIfNeedsSearch
    rw [ho]

/-- C5 witness: with ASCII lower-casing, "Latest News About Mars" opens the gate and so
does its upper-case spelling. -/
theorem checkIfNeedsSearch_spec_witness :
    (∀ p ∈ searchIndicators, Sample.asciiLower p = p) ∧
      checkIfNeedsSearch Sample.asciiLower "Latest News About Mars" = true ∧
      checkIfNeedsSearch Sample.asciiLower "LATEST NEWS ABOUT MARS" =
        checkIfNeedsSearch Sample.asciiLower "Latest News About Mars" :=
  ⟨by decide,
    (checkIfNeedsSearch_spec Sample.asciiLower (by decide) "Latest News About Mars").2.2.2.1
      (by decide),
    (checkIfNeedsSearch_spec Sample.asciiLower (by decide) "Latest News About Mars").2.2.2.2
      "LATEST NEWS ABOUT MARS" (by decide)⟩

end Gate

/-! ### The prompt builder -/

section Prompt

open ChatService Spec

theorem foldl_push_history (history init : List Turn) :
    history.foldl
        (fun prompt item => prompt ++ [({ role := item.role, content := item.content } : Turn)])
        init =
      init ++ history := by
  induction history generalizing init with
  | nil => simp
  | cons t ts ih => simp [ih]

/-- C6: `buildPrompt` returns, in this order, the system persona message naming the
language, one system location message exactly when a location is present (naming
"Unknown location" when the address is absent), the turns of the stored history verbatim
and in order, and a final user message carrying the utterance.  With empty history and no
location that is one system message followed by one user message, and a location inserts
exactly one system message immediately after the first. -/
theorem buildPrompt_order (self : ChatService) (message language : String) :
    self.buildPrompt message language none =
        personaMessage language :: (self.conversationHistory ++ [⟨"user", message⟩]) ∧
      (∀ location : Location,
        self.buildPrompt message language (some location) =
          personaMessage language ::
            locationMessage location.latitude location.longitude
              (jsOr location.address "Unknown location") ::
            (self.conversationHistory ++ [⟨"user", message⟩])) ∧
      (∀ latitude longitude : String,
        self.buildPrompt message language (some ⟨latitude, longitude, none⟩) =
          personaMessage language ::
            locationMessage latitude longitude "Unknown location" ::
            (self.conversationHistory ++ [⟨"user", message⟩])) ∧
      (personaMessage language).role = "system" ∧
      (∀ latitude longitude place, (locationMessage latitude longitude place).role = "system") ∧
      (self.conversationHistory = [] →
        self.buildPrompt message language none =
          [personaMessage language, ⟨"user", message⟩]) ∧
      (∀ location : Location,
        (self.buildPrompt message language (some location)).length =
            (self.buildPrompt message language none).length + 1 ∧
          (self.buildPrompt message language (some location)).head? =
            (self.buildPrompt message language none).head? ∧
          (self.buildPrompt message language (some location)).drop 2 =
            (self.buildPrompt message language none).drop 1) := by
  have hnone : self.buildPrompt message language none =
      personaMessage language :: (self.conversationHistory ++ [⟨"user", message⟩]) := by
    simp [buildPrompt, foldl_push_history, personaMessage]
  have hsome : ∀ location : Location,
      self.buildPrompt message language (some location) =
        personaMessage language ::
          locationMessage location.latitude location.longitude
            (jsOr location.address "Unknown location") ::
          (self.conversationHistory ++ [⟨"user", message⟩]) := by
    intro location
    simp [buildPrompt, foldl_push_history, personaMessage, locationMessage]
  refine ⟨hnone, hsome, ?_, rfl, ?_, ?_, ?_⟩
  · intro latitude longitude
    rw [hsome]
    rfl
  · intros; rfl
  · intro hh
    rw [hnone, hh]
    rfl
  · intro location
    rw [hsome, hnone]
    simp

/-- C6 witness: `buildPrompt("hi", "en", null)` over the empty history is the persona
message followed by the user message. -/
theorem buildPrompt_order_witness :
    constructor.conversationHistory = [] ∧
      constructor.buildPrompt "hi" "en" none = [personaMessage "en", ⟨"user", "hi"⟩] :=
  ⟨rfl, (buildPrompt_order constructor "hi" "en").2.2.2.2.2.1 rfl⟩

end Prompt

/-! ### The search provider -/

section Search

open SearchService

theorem searchWeb_of_primary_ok (b : Backends) (query : String) (language : Option String)
    (e : SearchEvidence) (h : searchWithSerpApi b query (language.getD "en") = .ok e) :
    searchWeb b query language = .ok e := by
  simp only [searchWeb, h, tryCatch, tryCatchThe, MonadExceptOf.tryCatch, Except.tryCatch]

theorem searchWeb_of_secondary_ok (b : Backends) (query : String) (language : Option String)
    (err : String) (e : SearchEvidence)
    (h1 : searchWithSerpApi b query (language.getD "en") = .error err)
    (h2 : searchWithGoogleApi b query (language.getD "en") = .ok e) :
    searchWeb b query language = .ok e := by
  simp only [searchWeb, h1, h2, tryCatch, tryCatchThe, MonadExceptOf.tryCatch, Except.tryCatch]

theorem searchWeb_of_both_fail (b : Backends) (query : String) (language : Option String)
    (err1 err2 : String)
    (h1 : searchWithSerpApi b query (language.getD "en") = .error err1)
    (h2 : searchWithGoogleApi b query (language.getD "en") = .error err2) :
    searchWeb b query language = .ok (.failure "Failed to perform web search" []) := by
  simp only [searchWeb, h1, h2, tryCatch, tryCatchThe, MonadExceptOf.tryCatch, Except.tryCatch]
  rfl

theorem searchWeb_ok (b : Backends) (query : String) (language : Option String) :
    ∃ e, searchWeb b query language = .ok e := by
  cases h1 : searchWithSerpApi b query (language.getD "en") with
  | ok e => exact ⟨e, searchWeb_of_primary_ok b query language e h1⟩
  | error err1 =>
    cases h2 : searchWithGoogleApi b query (language.getD "en") with
    | ok e => exact ⟨e, searchWeb_of_secondary_ok b query language err1 e h1 h2⟩
    | error err2 => exact ⟨_, searchWeb_of_both_fail b query language err1 err2 h1 h2⟩

theorem searchWithSerpApi_of_reply (b : Backends) (query language : String) (d : SerpData)
    (h : b.serpGet (serpParams b query language) = .ok d) :
    searchWithSerpApi b query language =
      .ok (.bundle query (d.organic_results.getD []) (jsOrNull d.knowledge_graph)
        (jsOrNull d.answer_box)) := by
  simp only [searchWithSerpApi, h, bind, Except.bind]
  rfl

theorem searchWithSerpApi_of_reject (b : Backends) (query language : String) (err : String)
    (h : b.serpGet (serpParams b query language) = .error err) :
    searchWithSerpApi b query language = .error err := by
  simp only [searchWithSerpApi, h, bind, Except.bind]

theorem searchWithGoogleApi_of_reply (b : Backends) (query language : String)
    (items : List GoogleItem)
    (h : b.googleGet (googleParams b query language) = .ok { items := some items }) :
    searchWithGoogleApi b query language =
      .ok (.bundle query (items.map remapItem) none none) := by
  simp only [searchWithGoogleApi, h, bind, Except.bind]
  rfl

theorem searchWithGoogleApi_cases (b : Backends) (query language : String) :
    (∃ err, searchWithGoogleApi b query language = .error err) ∨
      ∃ items, b.googleGet (googleParams b query language) = .ok { items := some items } ∧
        searchWithGoogleApi b query language =
          .ok (.bundle query (items.map remapItem) none none) := by
  cases h : b.googleGet (googleParams b query language) with
  | error err =>
    left
    exact ⟨err, by simp only [searchWithGoogleApi, h, bind, Except.bind]⟩
  | ok d =>
    rcases d with ⟨_ | items⟩
    · left
      exact ⟨_, by simp only [searchWithGoogleApi, h, bind, Except.bind]; rfl⟩
    · right
      exact ⟨items, rfl, searchWithGoogleApi_of_reply b query language items h⟩

/-- The fallback order of `searchWeb`, which never throws.  If `searchWithSerpApi`
resolves, its bundle is returned; if it rejects and `searchWithGoogleApi` resolves, the
result is the bundle of the secondary, each item remapped to `position, title, link,
snippet, source` in the same order; if both reject, the result is the error object with
an error message and an empty result list. -/
theorem searchWeb_fallback (b : Backends) (query : String) (language : Option String) :
    (∃ e, searchWeb b query language = .ok e) ∧
      (∀ e, searchWithSerpApi b query (language.getD "en") = .ok e →
        searchWeb b query language = .ok e) ∧
      (∀ d, b.serpGet (serpParams b query (language.getD "en")) = .ok d →
        searchWeb b query language =
          .ok (.bundle query (d.organic_results.getD []) (jsOrNull d.knowledge_graph)
            (jsOrNull d.answer_box))) ∧
      (∀ err e, searchWithSerpApi b query (language.getD "en") = .error err →
        searchWithGoogleApi b query (language.getD "en") = .ok e →
        searchWeb b query language = .ok e) ∧
      (∀ err items, b.serpGet (serpParams b query (language.getD "en")) = .error err →
        b.googleGet (googleParams b query (language.getD "en")) = .ok { items := some items } →
        searchWeb b query language =
          .ok (.bundle query
            (items.map fun item =>
              { position := item.rank, title := item.title, link := item.link,
                snippet := item.snippet, source := item.displayLink })
            none none)) ∧
      (∀ err1 err2, searchWithSerpApi b query (language.getD "en") = .error err1 →
        searchWithGoogleApi b query (language.getD "en") = .error err2 →
        searchWeb b query language = .ok (.failure "Failed to perform web search" [])) := by
  refine ⟨searchWeb_ok b query language, ?_, ?_, ?_, ?_, ?_⟩
  · exact fun e h => searchWeb_of_primary_ok b query language e h
  · intro d h
    exact searchWeb_of_primary_ok b query language _ (searchWithSerpApi_of_reply b query _ d h)
  · exact fun err e h1 h2 => searchWeb_of_secondary_ok b query language err e h1 h2
  · intro err items h1 h2
    exact searchWeb_of_secondary_ok b query language err _
      (searchWithSerpApi_of_reject b query _ err h1)
      (searchWithGoogleApi_of_reply b query _ items h2)
  · exact fun err1 err2 h1 h2 => searchWeb_of_both_fail b query language err1 err2 h1 h2

/-- The primary rejects and the secondary replies with two items, which come back
remapped and in order. -/
theorem searchWeb_fallback_witness :
    searchWeb
        (Sample.backends (.error "primary down")
          (.ok { items := some [Sample.item 1 "https://a.test", Sample.item 2 "https://b.test"] }))
        "q" (some "fr") =
      .ok (.bundle "q"
        [{ position := some 1, title := some "t", link := some "https://a.test",
           snippet := some "s", source := some "d" },
         { position := some 2, title := some "t", link := some "https://b.test",
           snippet := some "s", source := some "d" }]
        none none) :=
  (searchWeb_fallback
    (Sample.backends (.error "primary down")
      (.ok { items := some [Sample.item 1 "https://a.test", Sample.item 2 "https://b.test"] }))
    "q" (some "fr")).2.2.2.2.1 "primary down" _ rfl rfl

/-- C9: when the primary backend fails and the secondary answers with a reply that has
no `items` field, `searchWeb` returns the error object and not a bundle of the secondary:
`response.data.items.map` throws and the inner `catch` takes over.  The primary path guards
the same situation with `|| []` and returns a bundle with no organic results. -/
theorem searchWeb_secondary_without_items :
    searchWeb (Sample.backends (.error "primary down") (.ok { items := none })) "q" none =
        .ok (.failure "Failed to perform web search" []) ∧
      searchWithGoogleApi (Sample.backends (.error "primary down") (.ok { items := none }))
          "q" "en" =
        .error "TypeError: Cannot read properties of undefined (reading \x27map\x27)" ∧
      searchWeb
          (Sample.backends
            (.ok { organic_results := none, knowledge_graph := none, answer_box := none })
            (.error "unused"))
          "q" none =
        .ok (.bundle "q" [] none none) :=
  ⟨rfl, rfl, rfl⟩

/-- C10 (amended): `searchWeb` asks each backend for `num = 5` results and returns the
organic results of the reply that produced the bundle as they are (remapped, for the
secondary), without truncating them; so the bundle holds at most 5 organic results
whenever the reply of the backend that produced it carries no more results than the
number requested, whatever the other backend would have replied. -/
theorem searchWeb_at_most_five (b : Backends) (query : String) (language : Option String) :
    (serpParams b query (language.getD "en")).num = 5 ∧
      (googleParams b query (language.getD "en")).num = 5 ∧
      (∀ d, b.serpGet (serpParams b query (language.getD "en")) = .ok d →
        ∃ e, searchWeb b query language = .ok e ∧
          e.organic_results? = some (d.organic_results.getD []) ∧
          organicCount e = (d.organic_results.getD []).length ∧
          ((d.organic_results.getD []).length ≤ (serpParams b query (language.getD "en")).num →
            organicCount e ≤ 5)) ∧
      (∀ err items, b.serpGet (serpParams b query (language.getD "en")) = .error err →
        b.googleGet (googleParams b query (language.getD "en")) = .ok { items := some items } →
        ∃ e, searchWeb b query language = .ok e ∧
          e.organic_results? = some (items.map remapItem) ∧
          organicCount e = items.length ∧
          (items.length ≤ (googleParams b query (language.getD "en")).num →
            organicCount e ≤ 5)) := by
  refine ⟨rfl, rfl, ?_, ?_⟩
  · intro d h1
    refine ⟨_, searchWeb_of_primary_ok b query language _
      (searchWithSerpApi_of_reply b query _ d h1), rfl, rfl, ?_⟩
    intro hle
    exact hle
  · intro err items h1 h2
    refine ⟨_, searchWeb_of_secondary_ok b query language err _
      (searchWithSerpApi_of_reject b query _ err h1)
      (searchWithGoogleApi_of_reply b query _ items h2), rfl, ?_, ?_⟩
    · simp [organicCount, SearchEvidence.organic_results?]
    · intro hle
      simpa [organicCount, SearchEvidence.organic_results?, googleParams] using hle

/-- C10 witness: the primary replies with two results and produces the bundle, while the
secondary, which is not asked, would have replied with six items. -/
theorem searchWeb_at_most_five_witness :
    ∃ e, searchWeb
        (Sample.backends
          (Sample.serpReply [Sample.linkOnly "https://a.test", Sample.linkOnly "https://b.test"])
          (.ok { items := some ((List.range 6).map fun i => Sample.item i "https://a.test") }))
        "q" none = .ok e ∧
      e.organic_results? =
        some [Sample.linkOnly "https://a.test", Sample.linkOnly "https://b.test"] ∧
      organicCount e ≤ 5 := by
  obtain ⟨e, he, hres, _, hle⟩ :=
    (searchWeb_at_most_five
      (Sample.backends
        (Sample.serpReply [Sample.linkOnly "https://a.test", Sample.linkOnly "https://b.test"])
        (.ok { items := some ((List.range 6).map fun i => Sample.item i "https://a.test") }))
      "q" none).2.2.1
      { organic_results := some [Sample.linkOnly "https://a.test",
          Sample.linkOnly "https://b.test"],
        knowledge_graph := none, answer_box := none } rfl
  exact ⟨e, he, hres, hle (by decide)⟩

/-- C10 as stated fails: a reply of six organic results is returned whole, by the primary
backend and equally by the secondary. -/
theorem searchWeb_returns_six :
    searchWeb (Sample.backends (Sample.serpReply Sample.sixResults) (.error "unused"))
        "q" none = .ok (.bundle "q" Sample.sixResults none none) ∧
      ¬ organicCount (.bundle "q" Sample.sixResults none none) ≤ 5 ∧
      searchWeb
        (Sample.backends (.error "primary down")
          (.ok { items := some ((List.range 6).map fun i => Sample.item i "https://a.test") }))
        "q" none =
        .ok (.bundle "q"
          ((List.range 6).map fun i => remapItem (Sample.item i "https://a.test")) none none) ∧
      ¬ organicCount (.bundle "q"
          ((List.range 6).map fun i => remapItem (Sample.item i "https://a.test")) none none) ≤ 5 :=
  ⟨rfl, by decide, rfl, by decide⟩

end Search

/-! ### The orchestrator -/

section Orchestrator

open ChatService SearchService

theorem addToHistory_ends_with (self : ChatService) (role content : String)
    (hpos : 0 < self.maxHistoryLength) :
    (self.addToHistory role content).conversationHistory =
      self.conversationHistory.drop
          ((self.conversationHistory.length + 1) - self.maxHistoryLength * 2) ++
        [⟨role, content⟩] := by
  rw [addToHistory_history self role content hpos]
  exact List.drop_append_of_le_length (by omega)

theorem promptAndEvidence_gate_closed (rt : Runtime) (self : ChatService)
    (message detectedLanguage : String) (location : Option Location)
    (hgate : checkIfNeedsSearch rt.toLowerCase message = false) :
    promptAndEvidence rt self message detectedLanguage location =
      .ok (none, self.buildPrompt message detectedLanguage location) := by
  simp only [promptAndEvidence, hgate]
  rfl

theorem promptAndEvidence_gate_open (rt : Runtime) (self : ChatService)
    (message detectedLanguage : String) (location : Option Location)
    (evidence : SearchEvidence)
    (hgate : checkIfNeedsSearch rt.toLowerCase message = true)
    (hsearch : searchWeb rt.backends message (some detectedLanguage) = .ok evidence) :
    promptAndEvidence rt self message detectedLanguage location =
      .ok (some evidence,
        self.buildPrompt message detectedLanguage location ++
          [⟨"system", "Web search results for \"" ++ message ++ "\": " ++
            rt.jsonStringify evidence⟩]) := by
  simp only [promptAndEvidence, hgate, hsearch, if_true, bind, Except.bind]
  rfl

theorem promptAndEvidence_ok (rt : Runtime) (self : ChatService)
    (message detectedLanguage : String) (location : Option Location) :
    ∃ searchResults prompt,
      promptAndEvidence rt self message detectedLanguage location =
        .ok (searchResults, prompt) := by
  cases hgate : checkIfNeedsSearch rt.toLowerCase message with
  | false => exact ⟨_, _, promptAndEvidence_gate_closed rt self message _ location hgate⟩
  | true =>
    obtain ⟨e, he⟩ := searchWeb_ok rt.backends message (some detectedLanguage)
    exact ⟨_, _, promptAndEvidence_gate_open rt self message _ location e hgate he⟩

/-- C7: when the model dispatch fails, whatever the cause, `processMessage` fails with
the single error "Failed to process message", and the service afterwards is the prior one
with the user turn appended by `addToHistory` (truncated to the window): that turn is not
rolled back and no assistant turn is added, so the history ends with the user turn. -/
theorem processMessage_dispatch_failure (rt : Runtime) (self : ChatService)
    (message : String) (language : Option String) (location : Option Location) :
    ∃ searchResults prompt,
      promptAndEvidence rt (self.addToHistory "user" message) message
          (jsOr language (rt.languageDetection message)) location =
        .ok (searchResults, prompt) ∧
      ∀ cause, callLLMApi rt (self.addToHistory "user" message) prompt = .error cause →
        processMessage rt self message language location =
            (.error "Failed to process message", self.addToHistory "user" message) ∧
          (0 < self.maxHistoryLength →
            (processMessage rt self message language location).2.conversationHistory =
              self.conversationHistory.drop
                  ((self.conversationHistory.length + 1) - self.maxHistoryLength * 2) ++
                [⟨"user", message⟩]) := by
  obtain ⟨sr, prompt, hp⟩ := promptAndEvidence_ok rt (self.addToHistory "user" message) message
    (jsOr language (rt.languageDetection message)) location
  refine ⟨sr, prompt, hp, ?_⟩
  intro cause hfail
  have hres : processMessage rt self message language location =
      (.error "Failed to process message", self.addToHistory "user" message) := by
    simp only [processMessage, hp, hfail]
  refine ⟨hres, ?_⟩
  intro hpos
  rw [hres]
  exact addToHistory_ends_with self "user" message hpos

/-- C7 witness: a provider that rejects, on a history that already holds one exchange. -/
theorem processMessage_dispatch_failure_witness :
    processMessage (Sample.runtime (.error "HTTP 500") (Sample.backends (.error "a") (.error "b")))
        { constructor with conversationHistory := [⟨"user", "hi"⟩, ⟨"assistant", "hello"⟩] }
        "and now?" none none =
      (.error "Failed to process message",
        { constructor with
          conversationHistory :=
            [⟨"user", "hi"⟩, ⟨"assistant", "hello"⟩, ⟨"user", "and now?"⟩] }) := by
  obtain ⟨sr, prompt, hp, h⟩ := processMessage_dispatch_failure
    (Sample.runtime (.error "HTTP 500") (Sample.backends (.error "a") (.error "b")))
    { constructor with conversationHistory := [⟨"user", "hi"⟩, ⟨"assistant", "hello"⟩] }
    "and now?" none none
  exact (h "Failed to get response from Perplexity" rfl).1

/-- C8: when the gate is open for the utterance, the search returns non-error evidence
and the model returns the text `t`, `processMessage` returns a response whose text is `t`
and whose links include every non-empty link of the organic results, and the history
afterwards ends with the user turn followed by an assistant turn whose content is `t`. -/
theorem processMessage_success (rt : Runtime) (self : ChatService)
    (message : String) (language : Option String) (location : Option Location)
    (evidence : SearchEvidence) (organic_results : List OrganicResult) (t : String)
    (hpos : 0 < self.maxHistoryLength)
    (hgate : checkIfNeedsSearch rt.toLowerCase message = true)
    (hsearch : searchWeb rt.backends message
      (some (jsOr language (rt.languageDetection message))) = .ok evidence)
    (hev : evidence.organic_results? = some organic_results)
    (hmodel : callLLMApi rt (self.addToHistory "user" message)
      ((self.addToHistory "user" message).buildPrompt message
          (jsOr language (rt.languageDetection message)) location ++
        [⟨"system", "Web search results for \"" ++ message ++ "\": " ++
          rt.jsonStringify evidence⟩]) = .ok t) :
    ∃ response final,
      processMessage rt self message language location = (.ok response, final) ∧
      response.text = t ∧
      (∀ r ∈ organic_results, ∀ link, r.link = some link → link ≠ "" → link ∈ response.links) ∧
      [⟨"user", message⟩, ⟨"assistant", t⟩] <:+ final.conversationHistory := by
  have hp := promptAndEvidence_gate_open rt (self.addToHistory "user" message) message
    (jsOr language (rt.languageDetection message)) location evidence hgate hsearch
  refine ⟨postProcessResponse t (some evidence),
    (self.addToHistory "user" message).addToHistory "assistant"
      (postProcessResponse t (some evidence)).text, ?_, ?_, ?_, ?_⟩
  · simp only [processMessage, hp, hmodel]
  · rw [postProcessResponse_eq]
  · intro r hr link hl hne
    rw [postProcessResponse_eq]
    simp only [List.mem_append, mem_keepFirst, List.mem_filter, decide_eq_true_eq]
    by_cases hm : link ∈ Spec.urlShapedSubstrings t
    · exact Or.inl hm
    · refine Or.inr ⟨?_, hne, hm⟩
      rcases evidence with ⟨q, rs, kg, ab⟩ | ⟨e, rs⟩
      · simp only [SearchEvidence.organic_results?, Option.some.injEq] at hev
        subst hev
        simp only [Spec.evidenceLinks, List.mem_filterMap]
        exact ⟨r, hr, hl⟩
      · simp [SearchEvidence.organic_results?] at hev
  · have hm1 : (self.addToHistory "user" message).maxHistoryLength = self.maxHistoryLength :=
      addToHistory_maxHistoryLength _ _ _
    have h1 := addToHistory_ends_with self "user" message hpos
    have h2 := addToHistory_ends_with (self.addToHistory "user" message) "assistant"
      (postProcessResponse t (some evidence)).text (by omega)
    have ht : (postProcessResponse t (some evidence)).text = t := by
      rw [postProcessResponse_eq]
    rw [ht] at h2 ⊢
    rw [h2, hm1]
    generalize hd : (self.addToHistory "user" message).conversationHistory.length + 1 -
      self.maxHistoryLength * 2 = d
    rw [h1] at hd ⊢
    have hle : d ≤ (self.conversationHistory.drop
        ((self.conversationHistory.length + 1) - self.maxHistoryLength * 2)).length := by
      simp only [List.length_append, List.length_singleton] at hd
      omega
    rw [List.drop_append_of_le_length hle, List.append_assoc]
    exact List.suffix_append _ _

/-- C8 witness: "What is the capital of France?" opens the gate; with a stubbed search
result and the stubbed model output "Paris." the response and the history are as stated. -/
theorem processMessage_success_witness :
    checkIfNeedsSearch Sample.asciiLower "What is the capital of France?" = true ∧
      ∃ response final,
        processMessage
            (Sample.runtime (.ok "Paris.")
              (Sample.backends (Sample.serpReply [Sample.linkOnly "https://w.test/Paris"])
                (.error "unused")))
            constructor "What is the capital of France?" none none = (.ok response, final) ∧
        response.text = "Paris." ∧
        (∀ r ∈ [Sample.linkOnly "https://w.test/Paris"], ∀ link, r.link = some link →
          link ≠ "" → link ∈ response.links) ∧
        [⟨"user", "What is the capital of France?"⟩, ⟨"assistant", "Paris."⟩] <:+
          final.conversationHistory :=
  ⟨by decide,
    processMessage_success
      (Sample.runtime (.ok "Paris.")
        (Sample.backends (Sample.serpReply [Sample.linkOnly "https://w.test/Paris"])
          (.error "unused")))
      constructor "What is the capital of France?" none none
      (.bundle "What is the capital of France?" [Sample.linkOnly "https://w.test/Paris"] none none)
      [Sample.linkOnly "https://w.test/Paris"] "Paris."
      (by decide) (by decide) rfl rfl rfl⟩

end Orchestrator

/-! ### The prompt handed to the model -/

section Dispatch

open ChatService SearchService

theorem addToHistory_last (self : ChatService) (role content : String) :
    ∃ earlier, (self.addToHistory role content).conversationHistory =
      earlier ++ [⟨role, content⟩] := by
  rcases Nat.eq_zero_or_pos self.maxHistoryLength with h0 | hpos
  · refine ⟨self.conversationHistory, ?_⟩
    have hmin : min (0 : Int) ((self.conversationHistory.length : Int) + 1) = 0 := by omega
    simp [addToHistory, h0, jsSlice, hmin]
  · exact ⟨_, addToHistory_ends_with self role content hpos⟩

theorem buildPrompt_last (self : ChatService) (message language : String)
    (location : Option Location) :
    ∃ before, self.buildPrompt message language location = before ++ [⟨"user", message⟩] :=
  ⟨_, rfl⟩

theorem callLLMApi_eq (rt : Runtime) (self : ChatService) (prompt : List Turn) :
    callLLMApi rt self prompt =
      if self.apiType = "openai" then Spec.adapterOutcome "OpenAI" (rt.openai prompt)
      else if self.apiType = "anthropic" then
        Spec.adapterOutcome "Anthropic"
          (rt.anthropic (jsOr ((prompt.find? fun msg => msg.role = "system").map (·.content)) "")
            (prompt.filter fun msg => msg.role ≠ "system"))
      else if self.apiType = "perplexity" then
        Spec.adapterOutcome "Perplexity" (rt.perplexity prompt)
      else if self.apiType = "qwen" then Spec.adapterOutcome "Qwen" (rt.qwen prompt)
      else Spec.adapterOutcome "Sonar" (rt.sonar prompt) := by
  have hmap : ∀ l : List Turn,
      l.map (fun msg => ({ role := msg.role, content := msg.content } : Turn)) = l := by
    intro l
    induction l with
    | nil => rfl
    | cons t ts ih => simp [ih]
  unfold callLLMApi
  split
  · unfold callOpenAI
    cases h : rt.openai prompt <;>
      simp only [tryCatch, tryCatchThe, MonadExceptOf.tryCatch, Except.tryCatch, h] <;> rfl
  split
  · unfold callAnthropic
    simp only [hmap]
    cases h : rt.anthropic
        (jsOr ((prompt.find? fun msg => msg.role = "system").map (·.content)) "")
        (prompt.filter fun msg => msg.role ≠ "system") <;>
      simp only [tryCatch, tryCatchThe, MonadExceptOf.tryCatch, Except.tryCatch, h] <;> rfl
  split
  · unfold callPerplexity
    cases h : rt.perplexity prompt <;>
      simp only [tryCatch, tryCatchThe, MonadExceptOf.tryCatch, Except.tryCatch, h] <;> rfl
  split
  · unfold callQwen
    cases h : rt.qwen prompt <;>
      simp only [tryCatch, tryCatchThe, MonadExceptOf.tryCatch, Except.tryCatch, h] <;> rfl
  · unfold callSonar
    cases h : rt.sonar prompt <;>
      simp only [tryCatch, tryCatchThe, MonadExceptOf.tryCatch, Except.tryCatch, h] <;> rfl

theorem addToHistory_apiType (self : ChatService) (role content : String) :
    (self.addToHistory role content).apiType = self.apiType := by
  unfold addToHistory
  simp only []
  split <;> rfl

/-- C11: the message sequence `processMessage` passes to the model is `buildPrompt`
over the history as it stands after the user turn was appended, so the utterance is the
last history turn and the final user message; exactly when `checkIfNeedsSearch` is true
it is followed by one system message carrying the serialized search evidence tagged with
the utterance, which is then the last message, right after the final user message.  When
the gate is false nothing is appended and the search is not invoked: the outcome does
not depend on the search backends.  The outcome of `processMessage` is what it makes of
the model call on exactly that sequence, for every runtime, and with the constructor's
provider the adapter hands the sequence to the provider unchanged. -/
theorem processMessage_dispatched_prompt (rt : Runtime) (self : ChatService)
    (message : String) (language : Option String) (location : Option Location) :
    (∃ earlier, (self.addToHistory "user" message).conversationHistory =
        earlier ++ [⟨"user", message⟩]) ∧
      (∃ before,
        (self.addToHistory "user" message).buildPrompt message
            (jsOr language (rt.languageDetection message)) location =
          before ++ [⟨"user", message⟩]) ∧
      (checkIfNeedsSearch rt.toLowerCase message = false →
        processMessage rt self message language location =
            Spec.afterDispatch (self.addToHistory "user" message) none
              (callLLMApi rt (self.addToHistory "user" message)
                ((self.addToHistory "user" message).buildPrompt message
                  (jsOr language (rt.languageDetection message)) location)) ∧
          ∀ backends : Backends,
            processMessage { rt with backends := backends } self message language location =
              processMessage rt self message language location) ∧
      (checkIfNeedsSearch rt.toLowerCase message = true →
        ∃ evidence,
          searchWeb rt.backends message
              (some (jsOr language (rt.languageDetection message))) = .ok evidence ∧
            processMessage rt self message language location =
              Spec.afterDispatch (self.addToHistory "user" message) (some evidence)
                (callLLMApi rt (self.addToHistory "user" message)
                  ((self.addToHistory "user" message).buildPrompt message
                      (jsOr language (rt.languageDetection message)) location ++
                    [⟨"system", "Web search results for \"" ++ message ++ "\": " ++
                      rt.jsonStringify evidence⟩]))) ∧
      (∀ prompt, callLLMApi rt (self.addToHistory "user" message) prompt =
        if self.apiType = "openai" then Spec.adapterOutcome "OpenAI" (rt.openai prompt)
        else if self.apiType = "anthropic" then
          Spec.adapterOutcome "Anthropic"
            (rt.anthropic
              (jsOr ((prompt.find? fun msg => msg.role = "system").map (·.content)) "")
              (prompt.filter fun msg => msg.role ≠ "system"))
        else if self.apiType = "perplexity" then
          Spec.adapterOutcome "Perplexity" (rt.perplexity prompt)
        else if self.apiType = "qwen" then Spec.adapterOutcome "Qwen" (rt.qwen prompt)
        else Spec.adapterOutcome "Sonar" (rt.sonar prompt)) ∧
      constructor.apiType = "perplexity" := by
  refine ⟨addToHistory_last self "user" message, buildPrompt_last _ _ _ _, ?_, ?_, ?_, rfl⟩
  · intro hgate
    have h1 := promptAndEvidence_gate_closed rt (self.addToHistory "user" message) message
      (jsOr language (rt.languageDetection message)) location hgate
    have hmain : processMessage rt self message language location =
        Spec.afterDispatch (self.addToHistory "user" message) none
          (callLLMApi rt (self.addToHistory "user" message)
            ((self.addToHistory "user" message).buildPrompt message
              (jsOr language (rt.languageDetection message)) location)) := by
      simp only [processMessage, h1, Spec.afterDispatch]
    refine ⟨hmain, ?_⟩
    intro backends
    have h2 := promptAndEvidence_gate_closed { rt with backends := backends }
      (self.addToHistory "user" message) message
      (jsOr language (rt.languageDetection message)) location hgate
    simp only [processMessage, h1]
    simp only [h2]
    rfl
  · intro hgate
    obtain ⟨e, he⟩ := searchWeb_ok rt.backends message
      (some (jsOr language (rt.languageDetection message)))
    refine ⟨e, he, ?_⟩
    have hp := promptAndEvidence_gate_open rt (self.addToHistory "user" message) message
      (jsOr language (rt.languageDetection message)) location e hgate he
    simp only [processMessage, hp, Spec.afterDispatch]
  · intro prompt
    rw [callLLMApi_eq, addToHistory_apiType]

/-- C11 witness: "hello" keeps the gate closed, and the outcome is the same over two
different pairs of search backends; "What is the capital of France?" opens it, and the
outcome is what the model call on the prompt ending with the user message and the
evidence message gives. -/
theorem processMessage_dispatched_prompt_witness :
    (checkIfNeedsSearch Sample.asciiLower "hello" = false ∧
      processMessage
          (Sample.runtime (.ok "Hi!")
            (Sample.backends (Sample.serpReply Sample.sixResults) (.error "unused")))
          constructor "hello" none none =
        processMessage
          (Sample.runtime (.ok "Hi!") (Sample.backends (.error "a") (.error "b")))
          constructor "hello" none none) ∧
      (checkIfNeedsSearch Sample.asciiLower "What is the capital of France?" = true ∧
        processMessage
            (Sample.runtime (.ok "Paris.")
              (Sample.backends (Sample.serpReply [Sample.linkOnly "https://w.test/Paris"])
                (.error "unused")))
            constructor "What is the capital of France?" none none =
          Spec.afterDispatch (constructor.addToHistory "user" "What is the capital of France?")
            (some (.bundle "What is the capital of France?"
              [Sample.linkOnly "https://w.test/Paris"] none none))
            (callLLMApi
              (Sample.runtime (.ok "Paris.")
                (Sample.backends (Sample.serpReply [Sample.linkOnly "https://w.test/Paris"])
                  (.error "unused")))
              (constructor.addToHistory "user" "What is the capital of France?")
              [Spec.personaMessage "en", ⟨"user", "What is the capital of France?"⟩,
                ⟨"user", "What is the capital of France?"⟩,
                ⟨"system", "Web search results for \"What is the capital of France?\": \x7b\x7d"⟩])) := by
  refine ⟨⟨by decide, ?_⟩, ⟨by decide, ?_⟩⟩
  · exact ((processMessage_dispatched_prompt
      (Sample.runtime (.ok "Hi!") (Sample.backends (.error "a") (.error "b")))
      constructor "hello" none none).2.2.1 (by decide)).2
      (Sample.backends (Sample.serpReply Sample.sixResults) (.error "unused"))
  · obtain ⟨evidence, hev, hpm⟩ := (processMessage_dispatched_prompt
      (Sample.runtime (.ok "Paris.")
        (Sample.backends (Sample.serpReply [Sample.linkOnly "https://w.test/Paris"])
          (.error "unused")))
      constructor "What is the capital of France?" none none).2.2.2.1 (by decide)
    have hev2 : (Except.ok (SearchEvidence.bundle "What is the capital of France?"
        [Sample.linkOnly "https://w.test/Paris"] none none) : Except String SearchEvidence) =
        .ok evidence := hev
    cases hev2
    exact hpm

end Dispatch
